import Mathlib

/-!
Shallow embedding of the helpdesk ticket system (`src/models.py` of the
repository, a Django application) together with the parts of the lifecycle
engine that the repository only specifies.  Python strings are modelled as
`List Char`, database rows as structures, and the entity sets as lists of
rows.  Timestamps are naturals (only their order matters to the code under
study).
-/

namespace Helpdesk

/-! ### String machinery mirroring the Python built-ins used by `models.py` -/

/-- Model of Python `int(s)` on a decimal-digit string: fold the characters
left to right, `acc ↦ 10*acc + digit`. -/
def charsToNat (l : List Char) : Nat :=
  l.foldl (fun a c => 10 * a + (c.toNat - 48)) 0

/-- Fuel-driven decimal printer; `reprAux n n` equals Python `str(n)`.
The fuel argument only makes the recursion structural: it is never
exhausted when `n ≤ fuel`. -/
def reprAux : Nat → Nat → List Char
  | 0, n => [Nat.digitChar n]
  | fuel + 1, n =>
    if n < 10 then [Nat.digitChar n]
    else reprAux fuel (n / 10) ++ [Nat.digitChar (n % 10)]

/-- Model of Python `str(n)` for a non-negative integer. -/
def natRepr (n : Nat) : List Char := reprAux n n

/-- Model of Python format spec `:04d` applied to a non-negative integer's
digit string: left-pad with `'0'` to width 4; wider inputs pass through. -/
def padTo4 (l : List Char) : List Char :=
  List.replicate (4 - l.length) '0' ++ l

/-- Model of Python `s.split('-')`. -/
def splitOnDash : List Char → List (List Char)
  | [] => [[]]
  | c :: rest =>
    if c = '-' then [] :: splitOnDash rest
    else
      match splitOnDash rest with
      | [] => [[c]]
      | p :: ps => (c :: p) :: ps

/-- Last element of a list of segments (Python's `[-1]` indexing; the list
produced by `split` is never empty). -/
def lastD : List (List Char) → List Char
  | [] => []
  | [p] => p
  | _ :: q :: ps => lastD (q :: ps)

/-- Model of Python `s.split('-')[-1]`. -/
def lastSeg (l : List Char) : List Char :=
  lastD (splitOnDash l)

/-- Model of Python `s.startswith(p)` (`p` first argument). -/
def startsWithB : List Char → List Char → Bool
  | [], _ => true
  | _ :: _, [] => false
  | c :: p, d :: l => c = d && startsWithB p l

/-! ### Basic lemmas about the string machinery -/

theorem charsToNat_append_singleton (l : List Char) (c : Char) :
    charsToNat (l ++ [c]) = 10 * charsToNat l + (c.toNat - 48) := by
  unfold charsToNat
  rw [List.foldl_append]
  rfl

theorem foldl_digit_le (t : List Char) :
    ∀ a : Nat, a ≤ t.foldl (fun a c => 10 * a + (c.toNat - 48)) a := by
  induction t with
  | nil => intro a; exact Nat.le_refl a
  | cons c t ih =>
    intro a
    refine Nat.le_trans ?_ (ih (10 * a + (c.toNat - 48)))
    have h1 : a ≤ 10 * a := Nat.le_mul_of_pos_left a (by omega)
    omega

/-- Parsing a string extending `l` on the right yields at least `charsToNat l`. -/
theorem charsToNat_le_append (l t : List Char) :
    charsToNat l ≤ charsToNat (l ++ t) := by
  unfold charsToNat
  rw [List.foldl_append]
  exact foldl_digit_le t _

theorem digitChar_toNat {d : Nat} (h : d < 10) :
    (Nat.digitChar d).toNat - 48 = d := by
  interval_cases d <;> rfl

theorem digitChar_ne_dash {d : Nat} (h : d < 10) : Nat.digitChar d ≠ '-' := by
  interval_cases d <;> decide

/-- Every character of `reprAux fuel n` (with enough fuel) is a decimal
digit character. -/
theorem reprAux_digits :
    ∀ fuel n, n ≤ fuel → ∀ c ∈ reprAux fuel n, ∃ d, d < 10 ∧ c = Nat.digitChar d := by
  intro fuel
  induction fuel with
  | zero =>
    intro n hn c hc
    interval_cases n
    simp only [reprAux, List.mem_singleton] at hc
    exact ⟨0, by omega, hc⟩
  | succ fuel ih =>
    intro n hn c hc
    by_cases h10 : n < 10
    · simp only [reprAux, if_pos h10, List.mem_singleton] at hc
      exact ⟨n, h10, hc⟩
    · simp only [reprAux, if_neg h10, List.mem_append, List.mem_singleton] at hc
      rcases hc with hc | hc
      · exact ih (n / 10) (by omega) c hc
      · exact ⟨n % 10, Nat.mod_lt _ (by omega), hc⟩

theorem dash_not_mem_natRepr (n : Nat) : '-' ∉ natRepr n := by
  intro hmem
  obtain ⟨d, hd, hc⟩ := reprAux_digits n n (Nat.le_refl n) '-' hmem
  exact digitChar_ne_dash hd hc.symm

/-- `int(str(n)) = n`: parsing the decimal printout recovers the number. -/
theorem charsToNat_reprAux :
    ∀ fuel n, n ≤ fuel → charsToNat (reprAux fuel n) = n := by
  intro fuel
  induction fuel with
  | zero =>
    intro n hn
    interval_cases n
    rfl
  | succ fuel ih =>
    intro n hn
    by_cases h10 : n < 10
    · simp only [reprAux, if_pos h10]
      show 10 * 0 + ((Nat.digitChar n).toNat - 48) = n
      rw [digitChar_toNat h10]
      omega
    · simp only [reprAux, if_neg h10]
      rw [charsToNat_append_singleton,
        ih (n / 10) (by omega),
        digitChar_toNat (Nat.mod_lt _ (by omega))]
      omega

theorem charsToNat_natRepr (n : Nat) : charsToNat (natRepr n) = n :=
  charsToNat_reprAux n n (Nat.le_refl n)

/-- Leading zeros do not change the parsed value. -/
theorem charsToNat_replicate_zero_append (k : Nat) (l : List Char) :
    charsToNat (List.replicate k '0' ++ l) = charsToNat l := by
  induction k with
  | zero => rfl
  | succ k ih =>
    show charsToNat ('0' :: (List.replicate k '0' ++ l)) = charsToNat l
    unfold charsToNat at *
    simpa using ih

theorem charsToNat_padTo4 (l : List Char) :
    charsToNat (padTo4 l) = charsToNat l :=
  charsToNat_replicate_zero_append _ l

theorem padTo4_length (l : List Char) :
    (padTo4 l).length = max 4 l.length := by
  simp only [padTo4, List.length_append, List.length_replicate]
  omega

/-- When a string already has at least 4 characters, `:04d` padding is the
identity: the full value is printed, with no wrapping or truncation. -/
theorem padTo4_of_length_ge (l : List Char) (h : 4 ≤ l.length) :
    padTo4 l = l := by
  simp only [padTo4, Nat.sub_eq_zero_of_le h, List.replicate_zero, List.nil_append]

theorem splitOnDash_ne_nil (l : List Char) : splitOnDash l ≠ [] := by
  cases l with
  | nil => simp [splitOnDash]
  | cons c rest =>
    by_cases h : c = '-'
    · simp [splitOnDash, h]
    · simp only [splitOnDash, if_neg h]
      cases splitOnDash rest <;> simp

/-- Splitting a dash-free string yields the single segment. -/
theorem splitOnDash_no_dash (l : List Char) (h : '-' ∉ l) :
    splitOnDash l = [l] := by
  induction l with
  | nil => rfl
  | cons c rest ih =>
    have hc : ¬ c = '-' := fun hc => h (hc ▸ List.mem_cons_self c rest)
    have hrest : '-' ∉ rest := fun hm => h (List.mem_cons_of_mem c hm)
    simp [splitOnDash, hc, ih hrest]

/-- Prepending a dash-free segment and a dash adds one leading part. -/
theorem splitOnDash_append_dash (xs ys : List Char) (h : '-' ∉ xs) :
    splitOnDash (xs ++ '-' :: ys) = xs :: splitOnDash ys := by
  induction xs with
  | nil => simp [splitOnDash]
  | cons c xs ih =>
    have hc : ¬ c = '-' := fun hc => h (hc ▸ List.mem_cons_self c xs)
    have hxs : '-' ∉ xs := fun hm => h (List.mem_cons_of_mem c hm)
    simp only [List.cons_append, splitOnDash, if_neg hc, List.append_eq, ih hxs]

theorem lastD_cons_of_ne_nil (x : List Char) (l : List (List Char))
    (h : l ≠ []) : lastD (x :: l) = lastD l := by
  cases l with
  | nil => exact absurd rfl h
  | cons q ps => rfl

theorem lastSeg_append_dash (xs ys : List Char) (h : '-' ∉ xs) :
    lastSeg (xs ++ '-' :: ys) = lastSeg ys := by
  unfold lastSeg
  rw [splitOnDash_append_dash xs ys h]
  exact lastD_cons_of_ne_nil xs _ (splitOnDash_ne_nil ys)

theorem lastSeg_no_dash (l : List Char) (h : '-' ∉ l) : lastSeg l = l := by
  unfold lastSeg
  rw [splitOnDash_no_dash l h]
  rfl

/-- `startsWithB` is the boolean prefix test. -/
theorem startsWithB_iff (p : List Char) :
    ∀ l, startsWithB p l = true ↔ ∃ t, l = p ++ t := by
  induction p with
  | nil =>
    intro l
    simp [startsWithB]
  | cons c p ih =>
    intro l
    cases l with
    | nil =>
      simp only [startsWithB, Bool.false_eq_true, false_iff]
      rintro ⟨t, ht⟩
      exact List.cons_ne_nil c (p ++ t) ht.symm
    | cons d l =>
      simp only [startsWithB, Bool.and_eq_true, decide_eq_true_eq, ih l]
      constructor
      · rintro ⟨rfl, t, rfl⟩
        exact ⟨t, rfl⟩
      · rintro ⟨t, ht⟩
        simp only [List.cons_append, List.cons.injEq] at ht
        exact ⟨ht.1.symm, t, ht.2⟩

/-- If a dash-free string is a prefix of `a ++ '-' :: r` with `a` dash-free,
then it is built from `a` by dropping a (possibly empty) suffix — in
particular `a` extends it or they agree up to the dash. -/
theorem dash_free_common (b : List Char) :
    ∀ a r t, '-' ∉ b → a ++ '-' :: r = b ++ t → ∃ u, a = b ++ u := by
  induction b with
  | nil => intro a r t _ _; exact ⟨a, rfl⟩
  | cons d b ih =>
    intro a r t hb heq
    cases a with
    | nil =>
      simp only [List.nil_append, List.cons_append, List.cons.injEq] at heq
      exact absurd (heq.1 ▸ List.mem_cons_self d b) hb
    | cons c a =>
      simp only [List.cons_append, List.cons.injEq] at heq
      obtain ⟨u, hu⟩ := ih a r t (fun hm => hb (List.mem_cons_of_mem d hm)) heq.2
      exact ⟨u, by rw [List.cons_append, ← hu, heq.1]⟩

/-- Two dash-free segments followed by a dash decompose uniquely. -/
theorem dash_free_append_inj (a : List Char) :
    ∀ b u v, '-' ∉ a → '-' ∉ b → a ++ '-' :: u = b ++ '-' :: v →
      a = b ∧ u = v := by
  induction a with
  | nil =>
    intro b u v _ hb heq
    cases b with
    | nil => simpa using heq
    | cons d b =>
      simp only [List.nil_append, List.cons_append, List.cons.injEq] at heq
      exact absurd (heq.1 ▸ List.mem_cons_self d b) hb
  | cons c a ih =>
    intro b u v ha hb heq
    cases b with
    | nil =>
      simp only [List.cons_append, List.nil_append, List.cons.injEq] at heq
      exact absurd (heq.1 ▸ List.mem_cons_self c a) ha
    | cons d b =>
      simp only [List.cons_append, List.cons.injEq] at heq
      obtain ⟨h1, h2⟩ := ih b u v (fun hm => ha (List.mem_cons_of_mem c hm))
        (fun hm => hb (List.mem_cons_of_mem d hm)) heq.2
      exact ⟨by rw [h1, heq.1], h2⟩

/-- `natRepr` is injective (via the parse round-trip). -/
theorem natRepr_inj {m n : Nat} (h : natRepr m = natRepr n) : m = n := by
  have := charsToNat_natRepr m
  rw [h, charsToNat_natRepr] at this
  exact this.symm

/-! ### Data model (`src/models.py`) -/

/-- `CustomUser.ROLE_CHOICES`. -/
inductive Role where
  | TECNICO
  | USUARIO
deriving DecidableEq

/-- `Ticket.STATUS_CHOICES`. -/
inductive Status where
  | ABIERTO
  | EN_PROGRESO
  | RECHAZADO
  | CERRADO
  | ARCHIVADO
deriving DecidableEq

/-- `Ticket.PRIORITY_CHOICES`. -/
inductive Priority where
  | ALTA
  | MEDIA
  | BAJA
deriving DecidableEq

/-- `Ticket.CATEGORY_CHOICES`. -/
inductive Category where
  | COMPUTADORA
  | IMPRESORA
  | SOFTWARE
  | RED
  | ACCESO
  | OTRO
deriving DecidableEq

/-- `TicketHistory.ACTION_CHOICES`. -/
inductive HAction where
  | CREATED
  | STATUS_CHANGED
  | VISIT_SCHEDULED
  | REJECTED
  | CLOSED
  | NOTE_ADDED
  | ARCHIVED
deriving DecidableEq

/-- A `CustomUser` row (inherited `AbstractUser` columns beyond the ones the
model adds are omitted; `id` is the primary key). -/
structure UserRow where
  id : Nat
  role : Role
  institutional_email : List Char
  access_code : List Char
  code_sent_count : Int
  is_code_active : Bool
deriving DecidableEq

/-- A `Ticket` row.  Timestamps (`DateTimeField`) are naturals; `DateField`
and `TimeField` likewise, since only presence and order matter here. -/
structure TicketRow where
  id : Nat
  ticket_number : List Char
  user : Nat
  description : List Char
  category : Category
  priority : Priority
  status : Status
  affected_equipment : List Char
  serial_number : Option (List Char)
  visit_date : Option Nat
  visit_time : Option Nat
  rejection_reason : Option (List Char)
  closure_note : Option (List Char)
  created_at : Nat
  updated_at : Nat
  closed_at : Option Nat
deriving DecidableEq

/-- A `TicketAttachment` row. -/
structure AttachRow where
  id : Nat
  ticket : Nat
  image : List Char
  uploaded_at : Nat
deriving DecidableEq

/-- A `TicketHistory` row; `user` is nullable (`on_delete=SET_NULL`). -/
structure HistRow where
  id : Nat
  ticket : Nat
  user : Option Nat
  action : HAction
  comment : Option (List Char)
  timestamp : Nat
deriving DecidableEq

/-- A `Notification` row; `ticket` is nullable. -/
structure NotifRow where
  id : Nat
  user : Nat
  ticket : Option Nat
  title : List Char
  message : List Char
  is_read : Bool
  created_at : Nat
deriving DecidableEq

/-- The five persisted entity sets. -/
structure DB where
  users : List UserRow
  tickets : List TicketRow
  attachments : List AttachRow
  histories : List HistRow
  notifications : List NotifRow
deriving DecidableEq

/-! ### `generate_access_code` (`models.py` lines 8-10)

`secrets.choice` draws from `string.ascii_uppercase + string.digits`; the
random source is abstracted as a function giving, for each of the 12 draws,
an index into that alphabet. -/

/-- `string.ascii_uppercase + string.digits`. -/
def accessAlphabet : List Char :=
  "ABCDEFGHIJKLMNOPQRSTUVWXYZ0123456789".toList

/-- `''.join(secrets.choice(string.ascii_uppercase + string.digits)
for _ in range(12))`, with the secure random source modelled by `pick`. -/
def generate_access_code (pick : Nat → Fin accessAlphabet.length) : List Char :=
  (List.range 12).map (fun i => accessAlphabet.get (pick i))

/-! ### `generate_ticket_number` (`models.py` lines 13-26)

`timezone.now().year` is passed in as `year`; the `Ticket.objects` table is
passed in as `store`.  `order_by('-created_at').first()` is modelled by
`latestBy`: the element with maximal `created_at` (first such element on
ties, matching a stable descending sort). -/

/-- `qs.order_by('-created_at').first()`: maximal `created_at`, earliest
listed on ties. -/
def latestBy : List TicketRow → Option TicketRow
  | [] => none
  | t :: ts =>
    match latestBy ts with
    | none => some t
    | some u => if t.created_at < u.created_at then some u else some t

/-- `f'TCK-{year}'`, the filter pattern of the `startswith` lookup. -/
def tckTag (year : Nat) : List Char :=
  'T' :: 'C' :: 'K' :: '-' :: natRepr year

/-- `f'TCK-{year}-{num:04d}'`, the returned ticket-number string. -/
def tckNum (year num : Nat) : List Char :=
  'T' :: 'C' :: 'K' :: '-' :: (natRepr year ++ '-' :: padTo4 (natRepr num))

/-- The `ticket_number__startswith=f'TCK-{year}'` filter predicate. -/
def matchesYear (year : Nat) (t : TicketRow) : Bool :=
  startsWithB (tckTag year) t.ticket_number

/-- `generate_ticket_number` from `models.py`: filter the tickets whose
number starts with `TCK-{year}`, take the most recently created one, parse
`ticket_number.split('-')[-1]` as an integer and add 1 (or start at 1 when
no ticket matches), then format as `TCK-{year}-{num:04d}`. -/
def generate_ticket_number (year : Nat) (store : List TicketRow) : List Char :=
  match latestBy (store.filter (matchesYear year)) with
  | some last_ticket =>
    tckNum year (charsToNat (lastSeg last_ticket.ticket_number) + 1)
  | none => tckNum year 1

/-- The claim's reading of `generate_ticket_number` (C1): select the ticket
with the HIGHEST PARSED SEQUENCE among those matching `TCK-{year}`, rather
than the most recently created one.  Stated from the claim's words, for
comparison with the source function above. -/
def maxSeqBy : List TicketRow → Option TicketRow
  | [] => none
  | t :: ts =>
    match maxSeqBy ts with
    | none => some t
    | some u =>
      if charsToNat (lastSeg t.ticket_number) <
          charsToNat (lastSeg u.ticket_number) then some u else some t

/-- C1's claimed behaviour: highest existing sequence, incremented. -/
def claimed_ticket_number (year : Nat) (store : List TicketRow) : List Char :=
  match maxSeqBy (store.filter (matchesYear year)) with
  | some t => tckNum year (charsToNat (lastSeg t.ticket_number) + 1)
  | none => tckNum year 1

/-! ### `CustomUser.regenerate_code` (`models.py` lines 45-51) -/

/-- `regenerate_code`: new access code, counter reset, reactivated, saved;
returns the updated row paired with the method's return value
(`self.access_code`). -/
def regenerate_code (pick : Nat → Fin accessAlphabet.length) (u : UserRow) :
    UserRow × List Char :=
  let u' : UserRow :=
    { u with
      access_code := generate_access_code pick
      code_sent_count := 0
      is_code_active := true }
  (u', u'.access_code)

/-! ### `Ticket.get_short_description` (`models.py` lines 107-109) -/

/-- `self.description[:50] + '...' if len(self.description) > 50 else
self.description`. -/
def get_short_description (t : TicketRow) : List Char :=
  if 50 < t.description.length then
    t.description.take 50 ++ ('.' :: '.' :: '.' :: [])
  else t.description

/-! ### User deletion (Django `on_delete` semantics of `models.py`)

`Ticket.user` is `CASCADE` (line 80); `TicketAttachment.ticket`,
`TicketHistory.ticket`, `Notification.ticket` and `Notification.user` are
`CASCADE`; `TicketHistory.user` is `SET_NULL` (lines 134-135). -/

/-- Primary keys of the tickets owned by `uid`. -/
def ownedTicketIds (uid : Nat) (db : DB) : List Nat :=
  (db.tickets.filter (fun t => decide (t.user = uid))).map (fun t => t.id)

/-- `SET_NULL` on `TicketHistory.user`. -/
def nullifyActor (uid : Nat) (h : HistRow) : HistRow :=
  if h.user = some uid then { h with user := none } else h

/-- Deleting a `CustomUser`: Django's collector cascades over `CASCADE`
foreign keys (owned tickets, and those tickets' attachments, history rows
and notifications, plus the user's own notifications) and applies
`SET_NULL` to surviving history rows that referenced the user. -/
def deleteUser (uid : Nat) (db : DB) : DB :=
  let dead := ownedTicketIds uid db
  { users := db.users.filter (fun u => decide (u.id ≠ uid))
    tickets := db.tickets.filter (fun t => decide (t.user ≠ uid))
    attachments := db.attachments.filter (fun a => decide (a.ticket ∉ dead))
    histories :=
      (db.histories.filter (fun h => decide (h.ticket ∉ dead))).map
        (nullifyActor uid)
    notifications := db.notifications.filter
      (fun n =>
        decide (n.user ≠ uid) &&
          match n.ticket with
          | some t => decide (t ∉ dead)
          | none => true) }

/-! ### Lifecycle engine -/

/-- Error kinds of §7 of the specification. -/
inductive LcError where
  | invalidTransition
  | preconditionFailed
deriving DecidableEq

/-- Lifecycle events of the §4.3 transition table. -/
inductive LcEvent where
  | startWork (actor : Role)
  | scheduleVisit (d tm : Nat)
  | reject (reason : List Char)
  | close (note : List Char)
  | addNote (note : List Char)
  | archive (threshold : Nat)
deriving DecidableEq

/-- Modelled from the spec: the LifecycleEngine of §4.3 (its code — the
Django views driving `Ticket.status`, `closed_at`, `rejection_reason`,
`closure_note` and the visit fields — is not under `src/`; only the schema
is).  Each row of the §4.3 table becomes a guarded update on the ticket
fields; an event fired from a state not listed as its `From` is an
`invalidTransition`, a missing required field a `preconditionFailed`.
History/notification side effects are not needed by the claims settled
against this model and are omitted. -/
def lcTransition (now : Nat) (e : LcEvent) (tk : TicketRow) :
    Except LcError TicketRow :=
  match e with
  | .startWork actor =>
    if tk.status = .ABIERTO then
      if actor = .TECNICO then
        .ok { tk with status := .EN_PROGRESO, updated_at := now }
      else .error .invalidTransition
    else .error .invalidTransition
  | .scheduleVisit d tm =>
    if tk.status = .ABIERTO then
      .ok { tk with visit_date := some d, visit_time := some tm,
                    updated_at := now }
    else .error .invalidTransition
  | .reject reason =>
    if tk.status = .ABIERTO ∨ tk.status = .EN_PROGRESO then
      if reason = [] then .error .preconditionFailed
      else
        .ok { tk with status := .RECHAZADO, rejection_reason := some reason,
                      closed_at := some now, updated_at := now }
    else .error .invalidTransition
  | .close note =>
    if tk.status = .EN_PROGRESO then
      if note = [] then .error .preconditionFailed
      else
        .ok { tk with status := .CERRADO, closure_note := some note,
                      closed_at := some now, updated_at := now }
    else .error .invalidTransition
  | .addNote note =>
    if tk.status = .CERRADO then
      .ok { tk with closure_note := some note, updated_at := now }
    else .error .invalidTransition
  | .archive threshold =>
    if tk.status = .CERRADO then
      match tk.closed_at with
      | some c =>
        if threshold ≤ now - c then
          .ok { tk with status := .ARCHIVADO, updated_at := now }
        else .error .preconditionFailed
      | none => .error .preconditionFailed
    else .error .invalidTransition

/-- One engine invocation: a failed transition mutates nothing (§7
validate-then-commit). -/
def lcStep (tk : TicketRow) (p : Nat × LcEvent) : TicketRow :=
  match lcTransition p.1 p.2 tk with
  | .ok tk' => tk'
  | .error _ => tk

/-- A sequence of engine invocations at given times. -/
def lcRun (steps : List (Nat × LcEvent)) (tk : TicketRow) : TicketRow :=
  steps.foldl lcStep tk

/-- A freshly created ticket: status `ABIERTO` (the model default), the
optional fields null, timestamps set at creation. -/
def newTicket (num : List Char) (uid : Nat) (desc equip : List Char)
    (cat : Category) (created : Nat) : TicketRow :=
  { id := 0
    ticket_number := num
    user := uid
    description := desc
    category := cat
    priority := .MEDIA
    status := .ABIERTO
    affected_equipment := equip
    serial_number := none
    visit_date := none
    visit_time := none
    rejection_reason := none
    closure_note := none
    created_at := created
    updated_at := created
    closed_at := none }

/-! ### Default listing order (`Meta.ordering` of `models.py`) -/

/-- `Ticket.Meta.ordering = ['-created_at']` as a relation. -/
def byTicketDesc (a b : TicketRow) : Prop := b.created_at ≤ a.created_at

/-- `TicketHistory.Meta.ordering = ['-timestamp']` as a relation. -/
def byHistDesc (a b : HistRow) : Prop := b.timestamp ≤ a.timestamp

/-- `Notification.Meta.ordering = ['-created_at']` as a relation. -/
def byNotifDesc (a b : NotifRow) : Prop := b.created_at ≤ a.created_at

instance : DecidableRel byTicketDesc :=
  fun a b => Nat.decLe b.created_at a.created_at

instance : DecidableRel byHistDesc :=
  fun a b => Nat.decLe b.timestamp a.timestamp

instance : DecidableRel byNotifDesc :=
  fun a b => Nat.decLe b.created_at a.created_at

instance : IsTotal TicketRow byTicketDesc :=
  ⟨fun a b => Nat.le_total b.created_at a.created_at⟩

instance : IsTotal HistRow byHistDesc :=
  ⟨fun a b => Nat.le_total b.timestamp a.timestamp⟩

instance : IsTotal NotifRow byNotifDesc :=
  ⟨fun a b => Nat.le_total b.created_at a.created_at⟩

instance : IsTrans TicketRow byTicketDesc :=
  ⟨fun _ _ _ hab hbc => Nat.le_trans hbc hab⟩

instance : IsTrans HistRow byHistDesc :=
  ⟨fun _ _ _ hab hbc => Nat.le_trans hbc hab⟩

instance : IsTrans NotifRow byNotifDesc :=
  ⟨fun _ _ _ hab hbc => Nat.le_trans hbc hab⟩

/-- The default ticket listing (queryset under `Meta.ordering`). -/
def ticketListing (l : List TicketRow) : List TicketRow :=
  List.insertionSort byTicketDesc l

/-- The default history listing. -/
def historyListing (l : List HistRow) : List HistRow :=
  List.insertionSort byHistDesc l

/-- The default notification listing. -/
def notifListing (l : List NotifRow) : List NotifRow :=
  List.insertionSort byNotifDesc l

/-- Concrete ticket row used by evaluations: only the number and creation
time matter to the identity generator. -/
def sampleTicket (num : List Char) (created : Nat) : TicketRow :=
  newTicket num 0 [] [] Category.OTRO created

/-! ### Lemmas about `generate_ticket_number` -/

theorem dash_not_mem_padTo4_natRepr (s : Nat) :
    '-' ∉ padTo4 (natRepr s) := by
  intro hmem
  rcases List.mem_append.mp hmem with hm | hm
  · exact absurd (List.eq_of_mem_replicate hm) (by decide)
  · exact dash_not_mem_natRepr s hm

/-- Parsing the last dash-separated field of a generated number yields the
(padded) sequence string. -/
theorem lastSeg_tckNum (year s : Nat) :
    lastSeg (tckNum year s) = padTo4 (natRepr s) := by
  show lastSeg (('T' :: 'C' :: 'K' :: []) ++ '-' ::
    (natRepr year ++ '-' :: padTo4 (natRepr s))) = padTo4 (natRepr s)
  rw [lastSeg_append_dash _ _ (by decide),
    lastSeg_append_dash _ _ (dash_not_mem_natRepr year),
    lastSeg_no_dash _ (dash_not_mem_padTo4_natRepr s)]

/-- `int(num.split('-')[-1])` recovers the sequence of a generated number. -/
theorem parse_tckNum (year s : Nat) :
    charsToNat (lastSeg (tckNum year s)) = s := by
  rw [lastSeg_tckNum, charsToNat_padTo4, charsToNat_natRepr]

/-- A generated number matches its own year's `startswith` filter. -/
theorem startsWith_tckNum (year s : Nat) :
    startsWithB (tckTag year) (tckNum year s) = true := by
  rw [startsWithB_iff]
  exact ⟨'-' :: padTo4 (natRepr s), by simp [tckNum, tckTag]⟩

theorem latestBy_cons_none {x : TicketRow} {xs : List TicketRow}
    (hx : latestBy xs = none) : latestBy (x :: xs) = some x := by
  rw [latestBy, hx]

theorem latestBy_cons_some {x u : TicketRow} {xs : List TicketRow}
    (hx : latestBy xs = some u) :
    latestBy (x :: xs) =
      if x.created_at < u.created_at then some u else some x := by
  rw [latestBy, hx]

theorem latestBy_mem : ∀ (l : List TicketRow) (t : TicketRow),
    latestBy l = some t → t ∈ l := by
  intro l
  induction l with
  | nil => intro t h; exact absurd h (by simp [latestBy])
  | cons x xs ih =>
    intro t h
    rcases hx : latestBy xs with _ | u
    · rw [latestBy_cons_none hx, Option.some_inj] at h
      subst h
      exact List.mem_cons_self _ _
    · rw [latestBy_cons_some hx] at h
      by_cases hlt : x.created_at < u.created_at
      · rw [if_pos hlt, Option.some_inj] at h
        subst h
        exact List.mem_cons_of_mem x (ih _ hx)
      · rw [if_neg hlt, Option.some_inj] at h
        subst h
        exact List.mem_cons_self _ _

/-- `order_by('-created_at').first()` returns the strictly latest element
when one exists. -/
theorem latestBy_eq_of_strict :
    ∀ (l : List TicketRow) (t : TicketRow), t ∈ l →
      (∀ u ∈ l, u ≠ t → u.created_at < t.created_at) →
      latestBy l = some t := by
  intro l
  induction l with
  | nil => intro t ht; exact absurd ht (List.not_mem_nil t)
  | cons x xs ih =>
    intro t ht hstrict
    by_cases hxt : x = t
    · subst hxt
      rcases hx : latestBy xs with _ | u
      · exact latestBy_cons_none hx
      · rw [latestBy_cons_some hx]
        have hu : u ∈ xs := latestBy_mem xs u hx
        by_cases hux : u = x
        · subst hux
          rw [if_neg (lt_irrefl _)]
        · have := hstrict u (List.mem_cons_of_mem x hu) hux
          rw [if_neg (by omega)]
    · have ht' : t ∈ xs := by
        rcases List.mem_cons.mp ht with h | h
        · exact absurd h.symm hxt
        · exact h
      have hrec : latestBy xs = some t :=
        ih t ht' (fun u hu hut => hstrict u (List.mem_cons_of_mem x hu) hut)
      rw [latestBy_cons_some hrec]
      rw [if_pos (hstrict x (List.mem_cons_self x xs) hxt)]

/-- When no stored ticket matches `TCK-{year}`, the generator starts the
year at sequence 1. -/
theorem generate_eq_one_of_no_match (year : Nat) (store : List TicketRow)
    (h : ∀ t ∈ store, matchesYear year t = false) :
    generate_ticket_number year store = tckNum year 1 := by
  have hfilter : store.filter (matchesYear year) = [] := by
    rw [List.filter_eq_nil_iff]
    intro t ht
    simp [h t ht]
  unfold generate_ticket_number
  rw [hfilter]
  rfl

/-- When a matching ticket is the strictly most recently created among the
matching ones, the generator parses its sequence and adds 1. -/
theorem generate_eq_of_latest (year : Nat) (store : List TicketRow)
    (t : TicketRow) (htmem : t ∈ store) (htm : matchesYear year t = true)
    (hstrict : ∀ u ∈ store, matchesYear year u = true → u ≠ t →
      u.created_at < t.created_at) :
    generate_ticket_number year store =
      tckNum year (charsToNat (lastSeg t.ticket_number) + 1) := by
  have hmemf : t ∈ store.filter (matchesYear year) :=
    List.mem_filter.mpr ⟨htmem, htm⟩
  have hlat : latestBy (store.filter (matchesYear year)) = some t := by
    refine latestBy_eq_of_strict _ t hmemf ?_
    intro u hu hut
    have := List.mem_filter.mp hu
    exact hstrict u this.1 this.2 hut
  unfold generate_ticket_number
  rw [hlat]

/-- A year-`Y` number never matches the filter of year `Y+1`. -/
theorem startsWith_next_year_false (Y s : Nat) :
    startsWithB (tckTag (Y + 1)) (tckNum Y s) = false := by
  rw [Bool.eq_false_iff]
  intro htrue
  rw [startsWithB_iff] at htrue
  obtain ⟨tl, htl⟩ := htrue
  simp only [tckNum, tckTag, List.cons_append, List.cons.injEq, true_and] at htl
  obtain ⟨u, hu⟩ := dash_free_common (natRepr (Y + 1)) (natRepr Y)
    (padTo4 (natRepr s)) tl (dash_not_mem_natRepr (Y + 1)) htl
  have h1 : charsToNat (natRepr (Y + 1)) ≤ charsToNat (natRepr Y) := by
    rw [hu]
    exact charsToNat_le_append _ _
  rw [charsToNat_natRepr, charsToNat_natRepr] at h1
  omega

/-- Generated numbers of different years are distinct strings. -/
theorem tckNum_year_inj {Y Y' s s' : Nat} (h : tckNum Y s = tckNum Y' s') :
    Y = Y' := by
  simp only [tckNum, List.cons.injEq, true_and] at h
  obtain ⟨h1, _⟩ := dash_free_append_inj (natRepr Y) (natRepr Y') _ _
    (dash_not_mem_natRepr Y) (dash_not_mem_natRepr Y') h
  exact natRepr_inj h1

theorem foldl_digit_lt (l : List Char) (hl : ∀ c ∈ l, c.toNat - 48 ≤ 9) :
    ∀ a, l.foldl (fun a c => 10 * a + (c.toNat - 48)) a <
      (a + 1) * 10 ^ l.length := by
  induction l with
  | nil =>
    intro a
    simp only [List.foldl_nil, List.length_nil, pow_zero, mul_one]
    omega
  | cons c l ih =>
    intro a
    have hc : c.toNat - 48 ≤ 9 := hl c (List.mem_cons_self c l)
    have hrec := ih (fun d hd => hl d (List.mem_cons_of_mem c hd))
      (10 * a + (c.toNat - 48))
    simp only [List.foldl_cons, List.length_cons]
    calc l.foldl (fun a c => 10 * a + (c.toNat - 48))
          (10 * a + (c.toNat - 48))
        < (10 * a + (c.toNat - 48) + 1) * 10 ^ l.length := hrec
      _ ≤ ((a + 1) * 10) * 10 ^ l.length :=
          Nat.mul_le_mul_right _ (by omega)
      _ = (a + 1) * 10 ^ (l.length + 1) := by ring

/-- A string of decimal digits of length `k` parses below `10^k`. -/
theorem charsToNat_lt (l : List Char) (hl : ∀ c ∈ l, c.toNat - 48 ≤ 9) :
    charsToNat l < 10 ^ l.length := by
  have := foldl_digit_lt l hl 0
  simpa [charsToNat] using this

theorem natRepr_digit_vals (n : Nat) : ∀ c ∈ natRepr n, c.toNat - 48 ≤ 9 := by
  intro c hc
  obtain ⟨d, hd, rfl⟩ := reprAux_digits n n (Nat.le_refl n) c hc
  rw [digitChar_toNat hd]
  omega

/-- A sequence beyond 9999 prints with at least 4 (in fact 5) digits. -/
theorem natRepr_length_ge (s : Nat) (h : 9999 < s) :
    4 ≤ (natRepr s).length := by
  by_contra hlt
  push_neg at hlt
  have h2 : charsToNat (natRepr s) < 10 ^ (natRepr s).length :=
    charsToNat_lt _ (natRepr_digit_vals s)
  rw [charsToNat_natRepr] at h2
  have h3 : (10 : Nat) ^ (natRepr s).length ≤ 10 ^ 3 :=
    Nat.pow_le_pow_right (by omega) (by omega)
  omega

/-! ### Claim C1 -/

/-- Store refuting C1 as stated: the ticket with the highest sequence
(`TCK-2025-0005`) is older than a lower-sequence one (`TCK-2025-0002`). -/
def c1store : List TicketRow :=
  [sampleTicket "TCK-2025-0005".toList 1,
   sampleTicket "TCK-2025-0002".toList 2]

/-- C1 is false as stated: `generate_ticket_number` increments the
sequence of the most recently CREATED matching ticket, not of the one
with the highest existing sequence — on `c1store` the source function
yields `TCK-2025-0003` while the claimed highest-sequence rule yields
`TCK-2025-0006`. -/
theorem C1_counterexample :
    generate_ticket_number 2025 c1store = "TCK-2025-0003".toList ∧
    claimed_ticket_number 2025 c1store = "TCK-2025-0006".toList ∧
    generate_ticket_number 2025 c1store ≠
      claimed_ticket_number 2025 c1store := by
  refine ⟨?_, ?_, ?_⟩ <;> decide

/-- C1 (amended): for every store and year, `generate_ticket_number`
returns sequence 1 when no stored ticket number starts with `TCK-<year>`,
and otherwise returns the parsed sequence of the most recently created
matching ticket incremented by 1 (formatted). -/
theorem C1_generate_uses_latest_created (year : Nat)
    (store : List TicketRow) :
    ((∀ t ∈ store, matchesYear year t = false) →
      generate_ticket_number year store = tckNum year 1) ∧
    (∀ t ∈ store, matchesYear year t = true →
      (∀ u ∈ store, matchesYear year u = true → u ≠ t →
        u.created_at < t.created_at) →
      generate_ticket_number year store =
        tckNum year (charsToNat (lastSeg t.ticket_number) + 1)) :=
  ⟨generate_eq_one_of_no_match year store,
   fun t htmem htm hstrict =>
     generate_eq_of_latest year store t htmem htm hstrict⟩

/-- Witness for C1's amended theorem at concrete inputs: the empty store
starts at `TCK-2025-0001`; on `c1store` the latest-created matching ticket
is `TCK-2025-0002`, so the next number is `TCK-2025-0003`. -/
theorem C1_witness :
    generate_ticket_number 2025 ([] : List TicketRow) =
      "TCK-2025-0001".toList ∧
    generate_ticket_number 2025 c1store = "TCK-2025-0003".toList := by
  constructor
  · exact ((C1_generate_uses_latest_created 2025 []).1
      (fun t ht => absurd ht (List.not_mem_nil t))).trans (by decide)
  · exact ((C1_generate_uses_latest_created 2025 c1store).2
      (sampleTicket "TCK-2025-0002".toList 2) (by decide) (by decide)
      (by decide)).trans (by decide)

/-! ### Claim C2 -/

/-- A run of sequential ticket creations: starting from index `i`, create
`k` tickets; each creation stores a new row whose `ticket_number` is the
generator's output against the current store and whose `created_at` is
`times i` (`auto_now_add`).  Returns the final store and the list of
assigned numbers in creation order. -/
def createSeq (year : Nat) (times : Nat → Nat) :
    Nat → Nat → List TicketRow → List TicketRow × List (List Char)
  | _, 0, store => (store, [])
  | i, k + 1, store =>
    let num := generate_ticket_number year store
    let r := createSeq year times (i + 1) k
      (newTicket num 0 [] [] Category.OTRO (times i) :: store)
    (r.1, num :: r.2)

theorem createSeq_formula (year : Nat) (times : Nat → Nat)
    (hmono : StrictMono times) :
    ∀ (k i s : Nat) (store : List TicketRow),
      (∀ u ∈ store, matchesYear year u = true → u.created_at < times i) →
      generate_ticket_number year store = tckNum year (s + 1) →
      (createSeq year times i k store).2 =
        (List.range k).map (fun j => tckNum year (s + j + 1)) := by
  intro k
  induction k with
  | zero => intro i s store _ _; rfl
  | succ k ih =>
    intro i s store h1 h2
    have hnew : (newTicket (generate_ticket_number year store) 0 [] []
        Category.OTRO (times i)).ticket_number = tckNum year (s + 1) := h2
    have hmatch : matchesYear year (newTicket
        (generate_ticket_number year store) 0 [] [] Category.OTRO
        (times i)) = true := by
      unfold matchesYear
      rw [hnew]
      exact startsWith_tckNum year (s + 1)
    have hA : ∀ u ∈ (newTicket (generate_ticket_number year store) 0 [] []
        Category.OTRO (times i) :: store), matchesYear year u = true →
        u.created_at < times (i + 1) := by
      intro u hu hm
      rcases List.mem_cons.mp hu with h | h
      · rw [h]
        exact hmono (Nat.lt_succ_self i)
      · exact Nat.lt_trans (h1 u h hm) (hmono (Nat.lt_succ_self i))
    have hstrict : ∀ u ∈ (newTicket (generate_ticket_number year store)
        0 [] [] Category.OTRO (times i) :: store),
        matchesYear year u = true →
        u ≠ newTicket (generate_ticket_number year store) 0 [] []
          Category.OTRO (times i) →
        u.created_at < (newTicket (generate_ticket_number year store)
          0 [] [] Category.OTRO (times i)).created_at := by
      intro u hu hm hne
      rcases List.mem_cons.mp hu with h | h
      · exact absurd h hne
      · exact h1 u h hm
    have hB : generate_ticket_number year (newTicket
        (generate_ticket_number year store) 0 [] [] Category.OTRO
        (times i) :: store) = tckNum year (s + 1 + 1) := by
      rw [generate_eq_of_latest year
        (newTicket (generate_ticket_number year store) 0 [] []
          Category.OTRO (times i) :: store)
        (newTicket (generate_ticket_number year store) 0 [] []
          Category.OTRO (times i))
        (List.mem_cons_self _ _) hmatch hstrict, hnew, parse_tckNum]
    have htail : (List.range k).map
        ((fun j => tckNum year (s + j + 1)) ∘ Nat.succ) =
        (List.range k).map (fun j => tckNum year (s + 1 + j + 1)) := by
      apply List.map_congr_left
      intro j _
      show tckNum year (s + (j + 1) + 1) = tckNum year (s + 1 + j + 1)
      congr 1
      omega
    show generate_ticket_number year store ::
      (createSeq year times (i + 1) k
        (newTicket (generate_ticket_number year store) 0 [] []
          Category.OTRO (times i) :: store)).2 = _
    rw [ih (i + 1) (s + 1) _ hA hB, h2, List.range_succ_eq_map,
      List.map_cons, List.map_map, htail]

/-- C2: for every run of sequential same-year ticket creations against a
store holding no ticket of that year, the assigned sequence components
are exactly 1, 2, …, k — strictly increasing by 1, with no gaps and no
duplicates — and no assigned number collides with any pre-existing
ticket number in the entity set. -/
theorem C2_sequences_consecutive (year k : Nat) (times : Nat → Nat)
    (store : List TicketRow) (hmono : StrictMono times)
    (hstore : ∀ t ∈ store, matchesYear year t = false) :
    (createSeq year times 0 k store).2 =
      (List.range k).map (fun j => tckNum year (j + 1)) ∧
    ∀ t ∈ store, ∀ n ∈ (createSeq year times 0 k store).2,
      t.ticket_number ≠ n := by
  have h0 : generate_ticket_number year store = tckNum year (0 + 1) :=
    generate_eq_one_of_no_match year store hstore
  have hform := createSeq_formula year times hmono k 0 0 store
    (fun u hu hm => absurd hm (by rw [hstore u hu]; exact Bool.false_ne_true))
    h0
  refine ⟨by simpa using hform, ?_⟩
  intro t ht n hn heq
  rw [hform] at hn
  obtain ⟨j, _, hj⟩ := List.mem_map.mp hn
  have hmt : matchesYear year t = true := by
    unfold matchesYear
    rw [heq, ← hj]
    exact startsWith_tckNum year (0 + j + 1)
  rw [hstore t ht] at hmt
  exact Bool.false_ne_true hmt

/-- Witness for C2: three creations in 2025 from an empty store assign
`TCK-2025-0001`, `TCK-2025-0002`, `TCK-2025-0003`. -/
theorem C2_witness :
    (createSeq 2025 (fun i => i) 0 3 []).2 =
      ["TCK-2025-0001".toList, "TCK-2025-0002".toList,
       "TCK-2025-0003".toList] :=
  ((C2_sequences_consecutive 2025 3 (fun i => i) []
    (fun _ _ h => h) (fun t ht => absurd ht (List.not_mem_nil t))).1).trans
    (by decide)

/-! ### Claim C3 -/

/-- C3: every generated ticket number has the form
`TCK-<year>-<sequence>` with the sequence at least 1 and zero-padded to
4 digits (field width `max 4 (digit count)`), and parsing the last field
recovers the sequence exactly; beyond 9999 the width grows — the padding
becomes the identity and the full decimal numeral is printed, with no
wrapping or truncation. -/
theorem C3_format (year : Nat) (store : List TicketRow) :
    (∃ s, 1 ≤ s ∧
      generate_ticket_number year store = tckNum year s ∧
      (padTo4 (natRepr s)).length = max 4 (natRepr s).length ∧
      charsToNat (lastSeg (tckNum year s)) = s) ∧
    (∀ s, 9999 < s →
      padTo4 (natRepr s) = natRepr s ∧
      lastSeg (tckNum year s) = natRepr s) := by
  constructor
  · cases h : latestBy (store.filter (matchesYear year)) with
    | none =>
      refine ⟨1, le_refl 1, ?_, padTo4_length _, parse_tckNum year 1⟩
      unfold generate_ticket_number
      rw [h]
    | some t =>
      refine ⟨charsToNat (lastSeg t.ticket_number) + 1, by omega, ?_,
        padTo4_length _, parse_tckNum _ _⟩
      unfold generate_ticket_number
      rw [h]
  · intro s h9
    have hlen := natRepr_length_ge s h9
    refine ⟨padTo4_of_length_ge _ hlen, ?_⟩
    rw [lastSeg_tckNum, padTo4_of_length_ge _ hlen]

/-- Witness for C3 at `s = 10000 > 9999`: the padded field is the full
5-digit numeral. -/
theorem C3_witness :
    padTo4 (natRepr 10000) = natRepr 10000 ∧
    lastSeg (tckNum 2025 10000) = natRepr 10000 :=
  (C3_format 2025 []).2 10000 (by omega)

/-! ### Claim C4 -/

/-- C4: in a store whose tickets all carry year-`Y` numbers, the first
number generated for year `Y+1` has sequence 1, and a year-`Y+1` number
never equals any year-`Y` number. -/
theorem C4_year_rollover (Y : Nat) (store : List TicketRow)
    (h : ∀ t ∈ store, ∃ s, t.ticket_number = tckNum Y s) :
    generate_ticket_number (Y + 1) store = tckNum (Y + 1) 1 ∧
    ∀ s s', tckNum (Y + 1) s ≠ tckNum Y s' := by
  constructor
  · apply generate_eq_one_of_no_match
    intro t ht
    obtain ⟨s, hs⟩ := h t ht
    unfold matchesYear
    rw [hs]
    exact startsWith_next_year_false Y s
  · intro s s' heq
    have := tckNum_year_inj heq
    omega

/-! ### Claim C5 -/

/-- C5: for every random source, `generate_access_code` returns a string
of length exactly 12 whose every character is an uppercase ASCII letter
or a decimal digit. -/
theorem C5_access_code_shape (pick : Nat → Fin accessAlphabet.length) :
    (generate_access_code pick).length = 12 ∧
    ∀ c ∈ generate_access_code pick,
      ('A' ≤ c ∧ c ≤ 'Z') ∨ ('0' ≤ c ∧ c ≤ '9') := by
  constructor
  · simp [generate_access_code]
  · intro c hc
    obtain ⟨i, _, rfl⟩ := List.mem_map.mp hc
    have hmem : accessAlphabet.get (pick i) ∈ accessAlphabet :=
      List.get_mem accessAlphabet (pick i).1 (pick i).2
    have hall : ∀ c ∈ accessAlphabet,
        ('A' ≤ c ∧ c ≤ 'Z') ∨ ('0' ≤ c ∧ c ≤ '9') := by decide
    exact hall _ hmem

/-- Witness for C5 at the constant random source that always draws index
0 (`'A'`): the code has length 12 and `'A'` is in the allowed ranges. -/
theorem C5_witness :
    (generate_access_code (fun _ => ⟨0, by decide⟩)).length = 12 ∧
    (('A' ≤ 'A' ∧ 'A' ≤ 'Z') ∨ ('0' ≤ 'A' ∧ 'A' ≤ '9')) :=
  ⟨(C5_access_code_shape (fun _ => ⟨0, by decide⟩)).1,
   (C5_access_code_shape (fun _ => ⟨0, by decide⟩)).2 'A' (by decide)⟩

/-! ### Claim C6 -/

/-- C6: after `regenerate_code`, the user's `code_sent_count` is 0,
`is_code_active` is `True`, the `access_code` is a freshly generated
code, and the method returns the new `access_code`. -/
theorem C6_regenerate (pick : Nat → Fin accessAlphabet.length)
    (u : UserRow) :
    (regenerate_code pick u).1.code_sent_count = 0 ∧
    (regenerate_code pick u).1.is_code_active = true ∧
    (regenerate_code pick u).1.access_code = generate_access_code pick ∧
    (regenerate_code pick u).2 = (regenerate_code pick u).1.access_code :=
  ⟨rfl, rfl, rfl, rfl⟩

/-! ### Claim C7 -/

/-- Database refuting C7 as stated: user 1 owns ticket 10, which carries a
history row whose actor is user 2. -/
def c7db : DB :=
  { users := [⟨1, Role.USUARIO, [], [], 0, true⟩,
              ⟨2, Role.TECNICO, [], [], 0, true⟩]
    tickets := [{ sampleTicket "TCK-2025-0001".toList 0 with
                  id := 10, user := 1 }]
    attachments := []
    histories := [⟨100, 10, some 2, HAction.CREATED, none, 5⟩]
    notifications := [] }

/-- C7 is false as stated: deleting user 1 deletes ticket 10 by cascade,
and the history row on ticket 10 is deleted with it (`TicketHistory.ticket`
is `on_delete=CASCADE`), even though its acting user is user 2 — a history
row does NOT always survive a user deletion. -/
theorem C7_counterexample :
    c7db.histories ≠ [] ∧ (deleteUser 1 c7db).histories = [] := by
  constructor <;> decide

/-- C7 (amended): deleting a user deletes exactly the tickets it owns, and
a history row survives exactly when its ticket is not owned by the deleted
user — in which case it is unchanged except that an acting-user reference
to the deleted user is set to null.  History rows of the deleted user's own
tickets are removed through the ticket cascade. -/
theorem C7_cascade (db : DB) (uid : Nat) :
    (∀ t, t ∈ (deleteUser uid db).tickets ↔
      t ∈ db.tickets ∧ t.user ≠ uid) ∧
    (∀ h', h' ∈ (deleteUser uid db).histories ↔
      ∃ h ∈ db.histories,
        ¬(∃ t ∈ db.tickets, t.id = h.ticket ∧ t.user = uid) ∧
        h' = nullifyActor uid h) := by
  constructor
  · intro t
    simp only [deleteUser, List.mem_filter, decide_eq_true_eq]
  · intro h'
    simp only [deleteUser, List.mem_map, List.mem_filter,
      decide_eq_true_eq]
    constructor
    · rintro ⟨h, ⟨hmem, hdead⟩, rfl⟩
      refine ⟨h, hmem, ?_, rfl⟩
      rintro ⟨t, htmem, hid, huser⟩
      refine hdead ?_
      unfold ownedTicketIds
      exact List.mem_map.mpr
        ⟨t, List.mem_filter.mpr ⟨htmem, by simp [huser]⟩, hid⟩
    · rintro ⟨h, hmem, hnodead, rfl⟩
      refine ⟨h, ⟨hmem, ?_⟩, rfl⟩
      intro hdead
      unfold ownedTicketIds at hdead
      obtain ⟨t, htf, hid⟩ := List.mem_map.mp hdead
      have hm := List.mem_filter.mp htf
      exact hnodead ⟨t, hm.1, hid, of_decide_eq_true hm.2⟩

/-- Database for the C7 witness: user 2 owns ticket 20, whose history row
names user 1 as actor; deleting user 1 keeps the row with a null actor. -/
def c7wdb : DB :=
  { users := [⟨1, Role.USUARIO, [], [], 0, true⟩,
              ⟨2, Role.TECNICO, [], [], 0, true⟩]
    tickets := [{ sampleTicket "TCK-2025-0002".toList 0 with
                  id := 20, user := 2 }]
    attachments := []
    histories := [⟨101, 20, some 1, HAction.CREATED, none, 7⟩]
    notifications := [] }

/-- Witness for C7's amended theorem: after deleting user 1, the history
row on the surviving ticket 20 is present with its actor nulled. -/
theorem C7_witness :
    ({ id := 101, ticket := 20, user := none, action := HAction.CREATED,
       comment := none, timestamp := 7 } : HistRow) ∈
      (deleteUser 1 c7wdb).histories := by
  apply ((C7_cascade c7wdb 1).2 _).mpr
  exact ⟨⟨101, 20, some 1, HAction.CREATED, none, 7⟩,
    by decide, by decide, by decide⟩

/-- Store for the C4 witness: one year-2025 ticket. -/
def c4store : List TicketRow := [sampleTicket (tckNum 2025 7) 3]

/-! ### Claim C8 -/

/-- The claimed invariant, with `RECHAZADO` added: `closed_at` is set iff
the status is `RECHAZADO`, `CERRADO` or `ARCHIVADO`. -/
def closedAtConsistent (tk : TicketRow) : Prop :=
  tk.closed_at ≠ none ↔
    (tk.status = Status.RECHAZADO ∨ tk.status = Status.CERRADO ∨
      tk.status = Status.ARCHIVADO)

/-- A freshly created ticket for the C8 counterexample. -/
def c8ticket : TicketRow :=
  newTicket "TCK-2025-0001".toList 1 ['x'] [] Category.OTRO 0

/-- C8 is false as stated: after rejecting an open ticket (a legal
transition of the §4.3 table), `closed_at` is set while the status is
`RECHAZADO`, which is neither `CERRADO` (CLOSED) nor `ARCHIVADO`
(ARCHIVED) — the claimed iff fails after this operation. -/
theorem C8_counterexample :
    (lcRun [(5, LcEvent.reject ['x'])] c8ticket).closed_at = some 5 ∧
    (lcRun [(5, LcEvent.reject ['x'])] c8ticket).status =
      Status.RECHAZADO ∧
    ¬((lcRun [(5, LcEvent.reject ['x'])] c8ticket).status =
        Status.CERRADO ∨
      (lcRun [(5, LcEvent.reject ['x'])] c8ticket).status =
        Status.ARCHIVADO) := by
  refine ⟨?_, ?_, ?_⟩ <;> decide

/-- A successful transition preserves the (amended) `closed_at`
invariant. -/
theorem lcTransition_preserves (now : Nat) (e : LcEvent)
    (tk tk' : TicketRow) (htr : lcTransition now e tk = Except.ok tk')
    (h : closedAtConsistent tk) : closedAtConsistent tk' := by
  have hclosed : tk.status = Status.ABIERTO ∨
      tk.status = Status.EN_PROGRESO → tk.closed_at = none := by
    intro hs
    by_contra hc
    rcases h.mp hc with h' | h' | h' <;> rcases hs with hs | hs <;>
      rw [hs] at h' <;> cases h'
  cases e with
  | startWork actor =>
    simp only [lcTransition] at htr
    split_ifs at htr with h1 h2
    rw [Except.ok.injEq] at htr
    subst htr
    unfold closedAtConsistent
    simp [hclosed (Or.inl h1)]
  | scheduleVisit d tm =>
    simp only [lcTransition] at htr
    split_ifs at htr with h1
    rw [Except.ok.injEq] at htr
    subst htr
    unfold closedAtConsistent at h ⊢
    simpa using h
  | reject reason =>
    simp only [lcTransition] at htr
    split_ifs at htr with h1 h2
    rw [Except.ok.injEq] at htr
    subst htr
    unfold closedAtConsistent
    simp
  | close note =>
    simp only [lcTransition] at htr
    split_ifs at htr with h1 h2
    rw [Except.ok.injEq] at htr
    subst htr
    unfold closedAtConsistent
    simp
  | addNote note =>
    simp only [lcTransition] at htr
    split_ifs at htr with h1
    rw [Except.ok.injEq] at htr
    subst htr
    unfold closedAtConsistent at h ⊢
    simpa using h
  | archive threshold =>
    simp only [lcTransition] at htr
    split_ifs at htr with h1
    split at htr
    next c heq =>
      split_ifs at htr with h2
      rw [Except.ok.injEq] at htr
      subst htr
      unfold closedAtConsistent
      simp [heq]
    next heq => cases htr

/-- One engine invocation (including rejected ones, which do not mutate)
preserves the invariant. -/
theorem lcStep_preserves (tk : TicketRow) (p : Nat × LcEvent)
    (h : closedAtConsistent tk) : closedAtConsistent (lcStep tk p) := by
  rcases htr : lcTransition p.1 p.2 tk with err | tk'
  · unfold lcStep
    rw [htr]
    exact h
  · unfold lcStep
    rw [htr]
    exact lcTransition_preserves p.1 p.2 tk tk' htr h

theorem lcRun_preserves :
    ∀ (steps : List (Nat × LcEvent)) (tk : TicketRow),
      closedAtConsistent tk → closedAtConsistent (lcRun steps tk) := by
  intro steps
  induction steps with
  | nil => intro tk h; exact h
  | cons p steps ih =>
    intro tk h
    exact ih (lcStep tk p) (lcStep_preserves tk p h)

/-- C8 (amended): for every sequence of lifecycle-engine invocations on a
freshly created ticket, `closed_at` is non-null iff the status is
`RECHAZADO`, `CERRADO` or `ARCHIVADO`.  The claim's invariant without
`RECHAZADO` fails, because the §4.3 reject transition sets `closed_at`
while moving the ticket to `RECHAZADO`. -/
theorem C8_closed_at_invariant (steps : List (Nat × LcEvent))
    (num : List Char) (uid : Nat) (desc equip : List Char)
    (cat : Category) (created : Nat) :
    closedAtConsistent
      (lcRun steps (newTicket num uid desc equip cat created)) := by
  apply lcRun_preserves
  unfold closedAtConsistent newTicket
  simp

/-! ### Claim C9 -/

/-- C9: each default listing is sorted newest-first on its ordering field
(`created_at` for tickets and notifications, `timestamp` for history) and
is a permutation of the stored rows. -/
theorem C9_listing_order (db : DB) :
    (List.Sorted byTicketDesc (ticketListing db.tickets) ∧
      (ticketListing db.tickets).Perm db.tickets) ∧
    (List.Sorted byHistDesc (historyListing db.histories) ∧
      (historyListing db.histories).Perm db.histories) ∧
    (List.Sorted byNotifDesc (notifListing db.notifications) ∧
      (notifListing db.notifications).Perm db.notifications) :=
  ⟨⟨List.sorted_insertionSort byTicketDesc db.tickets,
    List.perm_insertionSort byTicketDesc db.tickets⟩,
   ⟨List.sorted_insertionSort byHistDesc db.histories,
    List.perm_insertionSort byHistDesc db.histories⟩,
   ⟨List.sorted_insertionSort byNotifDesc db.notifications,
    List.perm_insertionSort byNotifDesc db.notifications⟩⟩

/-! ### Claim C10 -/

/-- C10: `get_short_description` returns the description unchanged when
it has at most 50 characters, otherwise the first 50 characters followed
by `...`; the result never exceeds 53 characters. -/
theorem C10_short_description (t : TicketRow) :
    (t.description.length ≤ 50 →
      get_short_description t = t.description) ∧
    (50 < t.description.length →
      get_short_description t =
        t.description.take 50 ++ ('.' :: '.' :: '.' :: [])) ∧
    (get_short_description t).length ≤ 53 := by
  unfold get_short_description
  by_cases h : 50 < t.description.length
  · rw [if_pos h]
    refine ⟨fun h' => absurd h (by omega), fun _ => rfl, ?_⟩
    simp only [List.length_append, List.length_take, List.length_cons,
      List.length_nil]
    omega
  · rw [if_neg h]
    exact ⟨fun _ => rfl, fun h' => absurd h' h, by omega⟩

/-- Ticket with a 51-character description for the C10 witness. -/
def c10ticket : TicketRow :=
  newTicket [] 0 (List.replicate 51 'a') [] Category.OTRO 0

/-- Witness for C10 on a 51-character description: the first 50
characters plus `...`, 53 characters in total. -/
theorem C10_witness :
    get_short_description c10ticket =
      List.replicate 50 'a' ++ ('.' :: '.' :: '.' :: []) :=
  ((C10_short_description c10ticket).2.1 (by decide)).trans (by decide)

/-- Witness for C4 at a concrete store holding `TCK-2025-0007`. -/
theorem C4_witness :
    generate_ticket_number (2025 + 1) c4store = tckNum (2025 + 1) 1 ∧
    tckNum (2025 + 1) 3 ≠ tckNum 2025 3 := by
  have hyp : ∀ t ∈ c4store, ∃ s, t.ticket_number = tckNum 2025 s := by
    intro t ht
    simp only [c4store, List.mem_singleton] at ht
    exact ⟨7, by rw [ht]; rfl⟩
  exact ⟨(C4_year_rollover 2025 c4store hyp).1,
    (C4_year_rollover 2025 c4store hyp).2 3 3⟩
